import Mathlib

/-!
Verification development for the challenge-assignment core of the
orlando-app repository (Go backend, handlers in internal/handlers).

The embedding models the database tables (challenges, challenge_submissions,
posts) as Lean lists and each handler's SQL effect as a pure function on a
DB state, following the handler code statement by statement.  Statuses and
challenge types are kept as strings, as in the Go code and the schema
(status: available / in_progress / completed; challenge_type: exclusive /
open).  Presentation-only columns (title, description, media URLs, captions,
created_at) are omitted: no engine decision reads them.  SQL conditional
updates are modelled as a map over the table applying the row transform
exactly to the rows matching the WHERE clause, with the affected-row count
being the number of matching rows.
-/

/-- A row of the challenges table (state-relevant columns). -/
structure Challenge where
  id : Nat
  points : Nat
  challengeType : String
  status : String
  assignedTo : Option Nat
  completedBy : Option Nat
  completedPostId : Option Nat
  completedAt : Option Int
  startDate : Option Int
  endDate : Option Int
deriving DecidableEq, Repr

/-- A row of the challenge_submissions table; postId = 0 is the unset
sentinel used by the code (INSERT ... VALUES (?, ?, 0)). -/
structure Submission where
  challengeId : Nat
  userId : Nat
  postId : Nat
deriving DecidableEq, Repr

/-- A row of the posts table (state-relevant columns). -/
structure Post where
  id : Nat
  userId : Nat
  challengeId : Nat
  revoked : Bool
deriving DecidableEq, Repr

/-- The database state the assignment engine reads and writes, plus the
current instant used for CURRENT_TIMESTAMP comparisons. -/
structure DB where
  now : Int
  challenges : List Challenge
  submissions : List Submission
  posts : List Post
deriving DecidableEq, Repr

/-- The date-window condition appearing in PickChallenge queries:
(start_date IS NULL OR start_date <= CURRENT_TIMESTAMP) AND
(end_date IS NULL OR end_date >= CURRENT_TIMESTAMP). -/
def withinWindow (now : Int) (c : Challenge) : Bool :=
  (match c.startDate with
   | none => true
   | some s => decide (s ≤ now)) &&
  (match c.endDate with
   | none => true
   | some e => decide (now ≤ e))

/-- Lookup of a challenge row by primary key. -/
def findChallenge (db : DB) (cid : Nat) : Option Challenge :=
  db.challenges.find? (fun c => c.id == cid)

/-- Outcomes of PickChallenge, one per HTTP error path of the handler. -/
inductive PickResult where
  | ok
  | notFoundOrOutOfWindow
  | notAvailable
  | alreadyJoined
  | alreadyAssigned
  | alreadyTaken
deriving DecidableEq, Repr

/-- WHERE clause of the exclusive conditional assignment UPDATE:
id = ? AND assigned_to IS NULL AND status = 'available' AND window. -/
def pickUpdateCond (now : Int) (cid : Nat) (c : Challenge) : Bool :=
  c.id == cid && c.assignedTo == none && c.status == "available" && withinWindow now c

/-- PickChallenge handler: read (type, status) of the challenge within its
window; reject non-available; open path inserts a sentinel submission after
a uniqueness check; exclusive path checks assigned_to = user first, then
attempts the conditional UPDATE, mapping zero affected rows to the
already-taken conflict. -/
def PickChallenge (db : DB) (cid uid : Nat) : PickResult × DB :=
  match db.challenges.find? (fun c => c.id == cid && withinWindow db.now c) with
  | none => (PickResult.notFoundOrOutOfWindow, db)
  | some c =>
    if c.status ≠ "available" then (PickResult.notAvailable, db)
    else if c.challengeType == "open" then
      if (db.submissions.filter (fun s => s.challengeId == cid && s.userId == uid)).length > 0 then
        (PickResult.alreadyJoined, db)
      else
        (PickResult.ok,
          {db with submissions := db.submissions ++ [{challengeId := cid, userId := uid, postId := 0}]})
    else
      if (db.challenges.filter (fun ch => ch.id == cid && ch.assignedTo == some uid)).length > 0 then
        (PickResult.alreadyAssigned, db)
      else
        if (db.challenges.filter (fun ch => pickUpdateCond db.now cid ch)).length == 0 then
          (PickResult.alreadyTaken,
            {db with challenges := (db.challenges.map (fun ch =>
              if pickUpdateCond db.now cid ch then
                {ch with assignedTo := some uid, status := "in_progress"}
              else ch))})
        else
          (PickResult.ok,
            {db with challenges := (db.challenges.map (fun ch =>
              if pickUpdateCond db.now cid ch then
                {ch with assignedTo := some uid, status := "in_progress"}
              else ch))})

/-- Outcomes of CancelChallenge. -/
inductive CancelResult where
  | ok
  | notFound
  | notYours
deriving DecidableEq, Repr

/-- CancelChallenge handler: open path deletes the submission row of
(challenge, user) only while post_id = 0; exclusive path conditionally
clears assigned_to and returns the challenge to available; zero affected
rows map to the not-yours error in both paths. -/
def CancelChallenge (db : DB) (cid uid : Nat) : CancelResult × DB :=
  match db.challenges.find? (fun c => c.id == cid) with
  | none => (CancelResult.notFound, db)
  | some c =>
    if c.challengeType == "open" then
      if (db.submissions.filter
          (fun s => s.challengeId == cid && s.userId == uid && s.postId == 0)).length == 0 then
        (CancelResult.notYours,
          {db with submissions := (db.submissions.filter
            (fun s => !(s.challengeId == cid && s.userId == uid && s.postId == 0)))})
      else
        (CancelResult.ok,
          {db with submissions := (db.submissions.filter
            (fun s => !(s.challengeId == cid && s.userId == uid && s.postId == 0)))})
    else
      if (db.challenges.filter
          (fun ch => ch.id == cid && ch.assignedTo == some uid)).length == 0 then
        (CancelResult.notYours,
          {db with challenges := (db.challenges.map (fun ch =>
            if ch.id == cid && ch.assignedTo == some uid then
              {ch with assignedTo := none, status := "available"}
            else ch))})
      else
        (CancelResult.ok,
          {db with challenges := (db.challenges.map (fun ch =>
            if ch.id == cid && ch.assignedTo == some uid then
              {ch with assignedTo := none, status := "available"}
            else ch))})

/-- Outcomes of CompleteChallenge; ok carries the created post id and the
points_earned field of the JSON response. -/
inductive CompleteResult where
  | notFound
  | notAssigned
  | notJoined
  | alreadySubmitted
  | ok (postId : Nat) (pointsEarned : Nat)
deriving DecidableEq, Repr

/-- Fresh post id, standing for the RETURNING id of the posts INSERT. -/
def nextPostId (db : DB) : Nat :=
  db.posts.foldr (fun p m => max p.id m) 0 + 1

/-- CompleteChallenge handler: reads (points, type, status) of the
challenge; the exclusive path requires the challenge to be in_progress and
assigned to the caller, then inserts the post and completes the challenge
in one transaction; the open path requires a submission row whose post_id
is still the 0 sentinel (the COUNT existence check and the post_id read of
the handler are modelled by one row lookup), then inserts the post and
stores its id on the submission, leaving the challenge row untouched. -/
def CompleteChallenge (db : DB) (cid uid : Nat) : CompleteResult × DB :=
  match db.challenges.find? (fun c => c.id == cid) with
  | none => (CompleteResult.notFound, db)
  | some c =>
    if c.challengeType == "exclusive" then
      if (db.challenges.filter
          (fun ch => ch.id == cid && ch.assignedTo == some uid && ch.status == "in_progress")).length == 0 then
        (CompleteResult.notAssigned, db)
      else
        (CompleteResult.ok (nextPostId db) c.points,
          {db with
            posts := (db.posts ++
              [{id := nextPostId db, userId := uid, challengeId := cid, revoked := false}]),
            challenges := (db.challenges.map (fun ch =>
              if ch.id == cid then
                {ch with assignedTo := none, status := "completed", completedBy := some uid,
                         completedPostId := some (nextPostId db), completedAt := some db.now}
              else ch))})
    else
      match db.submissions.find? (fun s => s.challengeId == cid && s.userId == uid) with
      | none => (CompleteResult.notJoined, db)
      | some s =>
        if 0 < s.postId then (CompleteResult.alreadySubmitted, db)
        else
          (CompleteResult.ok (nextPostId db) 0,
            {db with
              posts := (db.posts ++
                [{id := nextPostId db, userId := uid, challengeId := cid, revoked := false}]),
              submissions := (db.submissions.map (fun s2 =>
                if s2.challengeId == cid && s2.userId == uid then
                  {s2 with postId := nextPostId db}
                else s2))})

/-- Outcomes of AwardChallenge. -/
inductive AwardResult where
  | ok
  | notFound
  | invalidUser
  | onlyOpen
  | alreadyAwarded
  | noSubmission
deriving DecidableEq, Repr

/-- AwardChallenge handler (admin): requires an open, not yet completed
challenge and a submission of the winner with post_id > 0; marks the
challenge completed with completed_by and completed_post_id set to the
winner and their submitted post. -/
def AwardChallenge (db : DB) (cid winnerId : Nat) : AwardResult × DB :=
  if winnerId == 0 then (AwardResult.invalidUser, db)
  else
    match db.challenges.find? (fun c => c.id == cid) with
    | none => (AwardResult.notFound, db)
    | some c =>
      if c.challengeType ≠ "open" then (AwardResult.onlyOpen, db)
      else if c.status == "completed" then (AwardResult.alreadyAwarded, db)
      else
        match db.submissions.find?
            (fun s => s.challengeId == cid && s.userId == winnerId && decide (0 < s.postId)) with
        | none => (AwardResult.noSubmission, db)
        | some s =>
          (AwardResult.ok,
            {db with challenges := (db.challenges.map (fun ch =>
              if ch.id == cid then
                {ch with status := "completed", completedBy := some winnerId,
                         completedPostId := some s.postId, completedAt := some db.now}
              else ch))})

/-- Outcomes of UnassignChallenge. -/
inductive UnassignResult where
  | ok
  | notAssigned
deriving DecidableEq, Repr

/-- UnassignChallenge handler (admin): conditional UPDATE clearing
assigned_to and returning the challenge to available, on status =
in_progress only. -/
def UnassignChallenge (db : DB) (cid : Nat) : UnassignResult × DB :=
  if (db.challenges.filter (fun c => c.id == cid && c.status == "in_progress")).length == 0 then
    (UnassignResult.notAssigned,
      {db with challenges := (db.challenges.map (fun c =>
        if c.id == cid && c.status == "in_progress" then
          {c with assignedTo := none, status := "available"}
        else c))})
  else
    (UnassignResult.ok,
      {db with challenges := (db.challenges.map (fun c =>
        if c.id == cid && c.status == "in_progress" then
          {c with assignedTo := none, status := "available"}
        else c))})

/-- Outcomes of RevokePostPoints and DeletePost. -/
inductive RevokeResult where
  | ok
  | notFound
deriving DecidableEq, Repr

/-- RevokePostPoints handler (admin): looks the post up by id (joined with
its challenge), resets the challenge fully to available (assigned_to,
completed_by, completed_post_id, completed_at all cleared) and flips the
post to revoked = TRUE.  The challenge_submissions table is not touched. -/
def RevokePostPoints (db : DB) (pid : Nat) : RevokeResult × DB :=
  match db.posts.find? (fun p => p.id == pid) with
  | none => (RevokeResult.notFound, db)
  | some p =>
    match db.challenges.find? (fun c => c.id == p.challengeId) with
    | none => (RevokeResult.notFound, db)
    | some _ =>
      (RevokeResult.ok,
        {db with
          challenges := (db.challenges.map (fun c =>
            if c.id == p.challengeId then
              {c with assignedTo := none, status := "available", completedBy := none,
                      completedPostId := none, completedAt := none}
            else c)),
          posts := (db.posts.map (fun q => if q.id == pid then {q with revoked := true} else q))})

/-- DeletePost handler: looks the post up by (id, owner) — the ownership
check — deletes the post row, and runs
UPDATE challenges SET assigned_to = NULL, status = 'available' WHERE id = ?
on the post's challenge.  Only those two columns are written. -/
def DeletePost (db : DB) (pid uid : Nat) : RevokeResult × DB :=
  match db.posts.find? (fun p => p.id == pid && p.userId == uid) with
  | none => (RevokeResult.notFound, db)
  | some p =>
    match db.challenges.find? (fun c => c.id == p.challengeId) with
    | none => (RevokeResult.notFound, db)
    | some _ =>
      (RevokeResult.ok,
        {db with
          posts := (db.posts.filter (fun q => !(q.id == pid))),
          challenges := (db.challenges.map (fun c =>
            if c.id == p.challengeId then {c with assignedTo := none, status := "available"}
            else c))})

/-- The point-earning condition of the scoring CASE expression shared by
GetLeaderboard, GetProfile, GetUser, Login and Register:
c.status = 'completed' AND ((c.challenge_type = 'exclusive') OR
(c.challenge_type = 'open' AND c.completed_by = u.id)). -/
def earnsPoints (uid : Nat) (c : Challenge) : Bool :=
  c.status == "completed" &&
    (c.challengeType == "exclusive" || (c.challengeType == "open" && c.completedBy == some uid))

/-- The posts a user is credited through: LEFT JOIN posts p ON
u.id = p.user_id AND p.revoked = FALSE. -/
def visiblePosts (db : DB) (uid : Nat) : List Post :=
  db.posts.filter (fun p => p.userId == uid && !p.revoked)

/-- Points one joined post row contributes: the challenge's points when the
CASE condition holds, else 0 (also 0 when the join finds no challenge). -/
def postPointsContribution (db : DB) (uid : Nat) (p : Post) : Nat :=
  match findChallenge db p.challengeId with
  | some c => if earnsPoints uid c then c.points else 0
  | none => 0

/-- Completed-count one joined post row contributes: COUNT over the same
CASE condition. -/
def postCompletedContribution (db : DB) (uid : Nat) (p : Post) : Nat :=
  match findChallenge db p.challengeId with
  | some c => if earnsPoints uid c then 1 else 0
  | none => 0

/-- total_points of the scoring projection (SUM of the CASE expression). -/
def userTotalPoints (db : DB) (uid : Nat) : Nat :=
  ((visiblePosts db uid).map (postPointsContribution db uid)).sum

/-- challenges_completed of the scoring projection (COUNT of the CASE
expression). -/
def userChallengesCompleted (db : DB) (uid : Nat) : Nat :=
  ((visiblePosts db uid).map (postCompletedContribution db uid)).sum

/-- The operation alphabet of invariant claim C5: pick, cancel, complete,
unassign and revoke, each running the corresponding handler and keeping
the resulting state. -/
inductive EngineOp where
  | pick (cid uid : Nat)
  | cancel (cid uid : Nat)
  | complete (cid uid : Nat)
  | unassign (cid : Nat)
  | revoke (pid : Nat)
deriving DecidableEq, Repr

/-- Run one engine operation for its state effect. -/
def applyOp (db : DB) : EngineOp → DB
  | EngineOp.pick cid uid => (PickChallenge db cid uid).2
  | EngineOp.cancel cid uid => (CancelChallenge db cid uid).2
  | EngineOp.complete cid uid => (CompleteChallenge db cid uid).2
  | EngineOp.unassign cid => (UnassignChallenge db cid).2
  | EngineOp.revoke pid => (RevokePostPoints db pid).2

/-- Run a sequence of engine operations. -/
def runOps (db : DB) (ops : List EngineOp) : DB :=
  ops.foldl applyOp db

/-- Invariant I1 for one challenge row: an exclusive challenge is assigned
iff it is in progress. -/
def challengeI1 (c : Challenge) : Prop :=
  c.challengeType = "exclusive" → (c.assignedTo ≠ none ↔ c.status = "in_progress")

instance (c : Challenge) : Decidable (challengeI1 c) := by
  unfold challengeI1; infer_instance

/-- Invariant I1 over the whole challenges table. -/
def invariantI1 (db : DB) : Prop :=
  ∀ c ∈ db.challenges, challengeI1 c

instance (db : DB) : Decidable (invariantI1 db) := by
  unfold invariantI1; exact List.decidableBAll _ _

/-- A freshly created challenge row as CreateChallenge inserts it: status
defaults to available with no assignment or completion fields set. -/
def freshChallenge (cid points : Nat) (ctype : String) (sd ed : Option Int) : Challenge :=
  {id := cid, points := points, challengeType := ctype, status := "available",
   assignedTo := none, completedBy := none, completedPostId := none,
   completedAt := none, startDate := sd, endDate := ed}

/-! ## Concrete states used by counterexamples and witnesses -/

/-- A completed exclusive challenge whose completion post is post 10 of
user 1. -/
def C1chal : Challenge :=
  {id := 1, points := 50, challengeType := "exclusive", status := "completed",
   assignedTo := none, completedBy := some 1, completedPostId := some 10,
   completedAt := some 3, startDate := none, endDate := none}

/-- The completion post backing C1chal. -/
def C1post : Post := {id := 10, userId := 1, challengeId := 1, revoked := false}

/-- State with one completed exclusive challenge and its completion post. -/
def C1db : DB := {now := 5, challenges := [C1chal], submissions := [], posts := [C1post]}

/-- An in-progress exclusive challenge assigned to user 7, inside an
unbounded window. -/
def C2chal : Challenge :=
  {id := 1, points := 50, challengeType := "exclusive", status := "in_progress",
   assignedTo := some 7, completedBy := none, completedPostId := none,
   completedAt := none, startDate := none, endDate := none}

/-- State with one in-progress exclusive challenge assigned to user 7. -/
def C2db : DB := {now := 5, challenges := [C2chal], submissions := [], posts := []}

/-- A completed open challenge awarded to user 2. -/
def C3chal : Challenge :=
  {id := 1, points := 30, challengeType := "open", status := "completed",
   assignedTo := none, completedBy := some 2, completedPostId := some 10,
   completedAt := some 3, startDate := none, endDate := none}

/-- State with a completed open challenge, the submissions of its two
entrants (users 2 and 3), and both their posts. -/
def C3db : DB :=
  {now := 5, challenges := [C3chal],
   submissions := [{challengeId := 1, userId := 2, postId := 10},
                   {challengeId := 1, userId := 3, postId := 11}],
   posts := [{id := 10, userId := 2, challengeId := 1, revoked := false},
             {id := 11, userId := 3, challengeId := 1, revoked := false}]}

/-- A fresh available exclusive challenge with an active window. -/
def C4chal : Challenge := freshChallenge 1 50 "exclusive" (some 0) (some 10)

/-- State with a single fresh exclusive challenge inside its window. -/
def C4db : DB := {now := 5, challenges := [C4chal], submissions := [], posts := []}

/-- A fresh open challenge with no window bounds. -/
def C6chal : Challenge := freshChallenge 1 30 "open" none none

/-- State with an open challenge joined by user 2 (post reference unset). -/
def C6db : DB :=
  {now := 5, challenges := [C6chal],
   submissions := [{challengeId := 1, userId := 2, postId := 0}], posts := []}

/-- State with an open challenge joined by user 2 (unsubmitted) and user 3
(already submitted post 4). -/
def C7db : DB :=
  {now := 5, challenges := [C6chal],
   submissions := [{challengeId := 1, userId := 2, postId := 0},
                   {challengeId := 1, userId := 3, postId := 4}], posts := []}

/-- State with the completed open challenge C3chal (awarded to user 2) and
non-revoked posts by its three entrants, users 2, 3 and 4. -/
def C8db : DB :=
  {now := 5, challenges := [C3chal],
   submissions := [{challengeId := 1, userId := 2, postId := 10},
                   {challengeId := 1, userId := 3, postId := 11},
                   {challengeId := 1, userId := 4, postId := 12}],
   posts := [{id := 10, userId := 2, challengeId := 1, revoked := false},
             {id := 11, userId := 3, challengeId := 1, revoked := false},
             {id := 12, userId := 4, challengeId := 1, revoked := false}]}

/-- State with the completed open challenge C3chal (awarded to user 2),
the winner's post 10 and a revoked post 11 of non-winning user 3. -/
def C9db : DB :=
  {now := 5, challenges := [C3chal],
   submissions := [{challengeId := 1, userId := 2, postId := 10},
                   {challengeId := 1, userId := 3, postId := 11}],
   posts := [{id := 10, userId := 2, challengeId := 1, revoked := false},
             {id := 11, userId := 3, challengeId := 1, revoked := true}]}

/-- State with an open challenge where user 2 has submitted post 9. -/
def C10db : DB :=
  {now := 5, challenges := [C6chal],
   submissions := [{challengeId := 1, userId := 2, postId := 9}],
   posts := [{id := 9, userId := 2, challengeId := 1, revoked := false}]}

/-! ## Shared lemmas about the conditional-update embedding -/

/-- A row matching the WHERE clause of a conditional UPDATE is replaced by
its transform in the updated table. -/
theorem mem_map_if_pos {α : Type} (f : α → α) (cond : α → Bool) (l : List α) (a : α)
    (ha : a ∈ l) (hc : cond a = true) :
    f a ∈ l.map (fun x => if cond x then f x else x) := by
  have h : (if cond a = true then f a else a) ∈ l.map (fun x => if cond x then f x else x) :=
    List.mem_map_of_mem (fun x => if cond x then f x else x) ha
  rwa [if_pos hc] at h

/-- A row not matching the WHERE clause of a conditional UPDATE survives
unchanged in the updated table. -/
theorem mem_map_if_neg {α : Type} (f : α → α) (cond : α → Bool) (l : List α) (a : α)
    (ha : a ∈ l) (hc : cond a = false) :
    a ∈ l.map (fun x => if cond x then f x else x) := by
  have h : (if cond a = true then f a else a) ∈ l.map (fun x => if cond x then f x else x) :=
    List.mem_map_of_mem (fun x => if cond x then f x else x) ha
  rwa [if_neg (by simp [hc])] at h

/-- A SELECT by a key that a unique row of the table carries returns that
row. -/
theorem find?_eq_some_of_unique {α : Type} (p : α → Bool) (l : List α) (a : α)
    (ha : a ∈ l) (hpa : p a = true) (huniq : ∀ b ∈ l, p b = true → b = a) :
    l.find? p = some a := by
  induction l with
  | nil => cases ha
  | cons x xs ih =>
    by_cases hx : p x = true
    · have hxa : x = a := huniq x (List.mem_cons_self x xs) hx
      subst hxa
      simp [List.find?_cons_of_pos, hx]
    · rw [List.find?_cons_of_neg _ hx]
      cases List.mem_cons.mp ha with
      | inl h => subst h; exact absurd hpa hx
      | inr h => exact ih h (fun b hb hpb => huniq b (List.mem_cons_of_mem x hb) hpb)

/-- A conditional UPDATE whose WHERE clause matches no row leaves the
table unchanged. -/
theorem map_id_of_forall {α : Type} (f : α → α) (l : List α)
    (h : ∀ a ∈ l, f a = a) : l.map f = l := by
  induction l with
  | nil => rfl
  | cons x xs ih =>
    simp only [List.map_cons]
    rw [h x (List.mem_cons_self x xs), ih (fun a ha => h a (List.mem_cons_of_mem x ha))]

/-- A SELECT by a key that every row keeps under a row transform commutes
with the transform: looking the key up in the updated table returns the
transform of the row the untouched table would return. -/
theorem find?_map_pred {α : Type} (f : α → α) (p : α → Bool) (hp : ∀ a, p (f a) = p a)
    (l : List α) : (l.map f).find? p = (l.find? p).map f := by
  induction l with
  | nil => rfl
  | cons x xs ih =>
    by_cases hx : p x = true
    · have hfx : p (f x) = true := by rw [hp, hx]
      rw [List.map_cons, List.find?_cons_of_pos _ hfx, List.find?_cons_of_pos _ hx]
      rfl
    · have hfx : ¬ p (f x) = true := by rw [hp]; exact hx
      rw [List.map_cons, List.find?_cons_of_neg _ hfx, List.find?_cons_of_neg _ hx]
      exact ih

/-! ## Claim C1 -/

/-- C1: the claim states that a successful DeletePost leaves the post's
challenge with assignedTo, completedBy and completedPost all null.  It is
false: on a state holding a completed exclusive challenge (completedBy =
user 1, completedPost = post 10), the owner's successful DeletePost of post
10 returns the challenge to status available but leaves completedBy = 1 and
completedPost = 10 in place. -/
theorem C1_counterexample :
    (DeletePost C1db 10 1).1 = RevokeResult.ok ∧
    (findChallenge (DeletePost C1db 10 1).2 1).map Challenge.status = some "available" ∧
    (findChallenge (DeletePost C1db 10 1).2 1).map Challenge.completedBy = some (some 1) ∧
    (findChallenge (DeletePost C1db 10 1).2 1).map Challenge.completedPostId = some (some 10) := by
  decide

/-- C1 (amended): for every post belonging to the requesting user, a
successful DeletePost deletes the post row and updates the post's
challenge by setting assignedTo to null and status to Available only,
leaving completedBy, completedPost and completedAt unchanged; rows of
other challenges and the submissions table are untouched. -/
theorem C1_theorem (db : DB) (pid uid : Nat) (p : Post) (c0 : Challenge)
    (hp : db.posts.find? (fun q => q.id == pid && q.userId == uid) = some p)
    (hc : db.challenges.find? (fun c => c.id == p.challengeId) = some c0) :
    (DeletePost db pid uid).1 = RevokeResult.ok ∧
    (∀ q ∈ (DeletePost db pid uid).2.posts, q.id ≠ pid ∧ q ∈ db.posts) ∧
    (∀ q ∈ db.posts, q.id ≠ pid → q ∈ (DeletePost db pid uid).2.posts) ∧
    (∀ ch ∈ db.challenges,
      (ch.id = p.challengeId →
        {ch with assignedTo := none, status := "available"} ∈ (DeletePost db pid uid).2.challenges) ∧
      (ch.id ≠ p.challengeId → ch ∈ (DeletePost db pid uid).2.challenges)) ∧
    (DeletePost db pid uid).2.submissions = db.submissions := by
  unfold DeletePost
  simp only [hp, hc]
  refine ⟨trivial, ?_, ?_, ?_, trivial⟩
  · intro q hq
    simp only [List.mem_filter, Bool.not_eq_true', beq_eq_false_iff_ne, ne_eq] at hq
    exact ⟨hq.2, hq.1⟩
  · intro q hq hne
    simp only [List.mem_filter, Bool.not_eq_true', beq_eq_false_iff_ne, ne_eq]
    exact ⟨hq, hne⟩
  · intro ch hch
    constructor
    · intro hid
      exact mem_map_if_pos
        (fun c : Challenge => {c with assignedTo := none, status := "available"})
        (fun c : Challenge => c.id == p.challengeId) db.challenges ch hch (by simp [hid])
    · intro hid
      exact mem_map_if_neg
        (fun c : Challenge => {c with assignedTo := none, status := "available"})
        (fun c : Challenge => c.id == p.challengeId) db.challenges ch hch (by simp [hid])

/-- Witness instantiating C1_theorem on the concrete C1db state. -/
theorem C1_witness :
    (DeletePost C1db 10 1).1 = RevokeResult.ok ∧
    ({C1chal with assignedTo := none, status := "available"} : Challenge)
      ∈ (DeletePost C1db 10 1).2.challenges := by
  have h := C1_theorem C1db 10 1 C1post C1chal (by decide) (by decide)
  exact ⟨h.1, (h.2.2.2.1 C1chal (by decide)).1 (by decide)⟩

/-! ## Claim C2 -/

/-- C2: the claim states that the assigned user picking their own
in-progress exclusive challenge receives the distinct AlreadyAssigned
error.  It is false: on a state where exclusive challenge 1 is in_progress
and assigned to user 7, a pick by user 7 returns the generic notAvailable
error, because the handler rejects any non-available status before it
runs the already-assigned check. -/
theorem C2_counterexample :
    (PickChallenge C2db 1 7).1 = PickResult.notAvailable ∧
    (PickChallenge C2db 1 7).1 ≠ PickResult.alreadyAssigned := by
  decide

/-- C2 (amended): for every exclusive challenge found within its window,
any non-available status — in particular in_progress with assignedTo =
the calling user — makes Pick return the generic notAvailable error; the
distinct alreadyAssigned error is only reachable when the challenge row
still reads status available while already carrying assignedTo = the
calling user. -/
theorem C2_theorem (db : DB) (cid uid : Nat) (c : Challenge)
    (hfind : db.challenges.find? (fun ch => ch.id == cid && withinWindow db.now ch) = some c) :
    (c.status ≠ "available" → (PickChallenge db cid uid).1 = PickResult.notAvailable) ∧
    ((PickChallenge db cid uid).1 = PickResult.alreadyAssigned →
      c.status = "available" ∧ ∃ ch ∈ db.challenges, ch.id = cid ∧ ch.assignedTo = some uid) := by
  unfold PickChallenge
  simp only [hfind]
  constructor
  · intro hst
    rw [if_pos hst]
  · intro hres
    by_cases hst : c.status = "available"
    · refine ⟨hst, ?_⟩
      rw [if_neg (by simp [hst])] at hres
      by_cases hopen : c.challengeType = "open"
      · rw [if_pos (by simp [hopen])] at hres
        split at hres <;> simp_all
      · rw [if_neg (by simp [hopen])] at hres
        split at hres
        · rename_i hlen
          have hne := List.ne_nil_of_length_pos hlen
          obtain ⟨x, hx⟩ := List.exists_mem_of_ne_nil _ hne
          have hx2 := List.mem_filter.mp hx
          refine ⟨x, hx2.1, ?_⟩
          have := hx2.2
          simp only [Bool.and_eq_true, beq_iff_eq] at this
          exact this
        · split at hres <;> simp_all
    · rw [if_pos (by simp [hst])] at hres
      simp at hres

/-- Witness instantiating C2_theorem on the concrete C2db state. -/
theorem C2_witness : (PickChallenge C2db 1 7).1 = PickResult.notAvailable :=
  (C2_theorem C2db 1 7 C2chal (by decide)).1 (by decide)

/-! ## Claim C3 -/

/-- C3: the claim states that the revoke flow deletes the challenge's
Submission rows.  It is false: on a state where the completed open
challenge 1 has submission rows for users 2 and 3, a successful
RevokePostPoints on the winning post 10 leaves the submissions table
unchanged — both rows persist. -/
theorem C3_counterexample :
    (RevokePostPoints C3db 10).1 = RevokeResult.ok ∧
    (RevokePostPoints C3db 10).2.submissions = C3db.submissions ∧
    ({challengeId := 1, userId := 2, postId := 10} : Submission)
      ∈ (RevokePostPoints C3db 10).2.submissions ∧
    ({challengeId := 1, userId := 3, postId := 11} : Submission)
      ∈ (RevokePostPoints C3db 10).2.submissions := by
  decide

/-- C3 (amended): RevokePostPoints never touches the submissions table —
for every state and post id the submissions list after revoke equals the
one before, so Submission rows persist after challenge completion in every
flow; the only submission-deleting path in the engine is the open-cancel
path, which requires the post reference to still be unset. -/
theorem C3_theorem (db : DB) (pid : Nat) :
    (RevokePostPoints db pid).2.submissions = db.submissions := by
  unfold RevokePostPoints
  cases h1 : db.posts.find? (fun p => p.id == pid) with
  | none => rfl
  | some p =>
    cases h2 : db.challenges.find? (fun c => c.id == p.challengeId) with
    | none => simp only [h2]
    | some c => simp only [h2]

/-! ## Claim C4 -/

/-- C4: for an exclusive challenge within its active window whose row the
pick reaches the conditional UPDATE for (status read as available, not
already assigned to the caller), Pick succeeds iff the row still has
status available and assignedTo null at the update (the CAS condition);
on success the one atomic conditional write sets assignedTo = uid and
status = in_progress and leaves every other row unchanged; when the
condition fails (zero rows affected, the race lost to another user) the
handler returns alreadyTaken and the state is unchanged. -/
theorem C4_theorem (db : DB) (cid uid : Nat) (c : Challenge)
    (hmem : c ∈ db.challenges)
    (huniq : ∀ ch ∈ db.challenges, ch.id = cid → ch = c)
    (hid : c.id = cid)
    (hwin : withinWindow db.now c = true)
    (hex : c.challengeType = "exclusive")
    (hav : c.status = "available")
    (hnotmine : c.assignedTo ≠ some uid) :
    (pickUpdateCond db.now cid c = true ↔ (c.status = "available" ∧ c.assignedTo = none)) ∧
    ((PickChallenge db cid uid).1 = PickResult.ok ↔ c.assignedTo = none) ∧
    (c.assignedTo = none →
      ({c with assignedTo := some uid, status := "in_progress"} : Challenge)
        ∈ (PickChallenge db cid uid).2.challenges ∧
      ∀ ch ∈ db.challenges, ch.id ≠ cid → ch ∈ (PickChallenge db cid uid).2.challenges) ∧
    (∀ v, c.assignedTo = some v →
      (PickChallenge db cid uid).1 = PickResult.alreadyTaken ∧
      (PickChallenge db cid uid).2 = db) := by
  have hfind : db.challenges.find? (fun ch => ch.id == cid && withinWindow db.now ch) = some c := by
    apply find?_eq_some_of_unique _ _ _ hmem (by simp [hid, hwin])
    intro b hb hpb
    simp only [Bool.and_eq_true, beq_iff_eq] at hpb
    exact huniq b hb hpb.1
  have hpre : db.challenges.filter (fun ch => ch.id == cid && ch.assignedTo == some uid) = [] := by
    rw [List.filter_eq_nil_iff]
    intro ch hch
    simp only [Bool.and_eq_true, beq_iff_eq, not_and]
    intro hchid
    rw [huniq ch hch hchid]
    exact hnotmine
  have hiff : pickUpdateCond db.now cid c = true ↔ (c.status = "available" ∧ c.assignedTo = none) := by
    constructor
    · intro h
      simp only [pickUpdateCond, Bool.and_eq_true, beq_iff_eq] at h
      exact ⟨h.1.2, h.1.1.2⟩
    · intro h
      simp [pickUpdateCond, hid, hwin, h.1, h.2]
  refine ⟨hiff, ?_, ?_, ?_⟩
  · -- success iff assigned none
    unfold PickChallenge
    simp only [hfind]
    rw [if_neg (by simp [hav]), if_neg (by simp [hex]), hpre]
    simp only [List.length_nil, gt_iff_lt, lt_self_iff_false, if_false]
    cases hass : c.assignedTo with
    | none =>
      have hcondc : pickUpdateCond db.now cid c = true := hiff.mpr ⟨hav, hass⟩
      have haff : c ∈ db.challenges.filter (fun ch => pickUpdateCond db.now cid ch) :=
        List.mem_filter.mpr ⟨hmem, hcondc⟩
      have hlen : ((db.challenges.filter (fun ch => pickUpdateCond db.now cid ch)).length == 0) = false := by
        simp only [beq_eq_false_iff_ne, ne_eq]
        intro h0
        rw [List.length_eq_zero] at h0
        rw [h0] at haff
        cases haff
      rw [if_neg (by simp [hlen])]
      simp
    | some v =>
      have hcond0 : ∀ ch ∈ db.challenges, pickUpdateCond db.now cid ch = false := by
        intro ch hch
        by_cases hchid : ch.id = cid
        · rw [huniq ch hch hchid]
          simp [pickUpdateCond, hass]
        · simp [pickUpdateCond, hchid]
      have hflt : db.challenges.filter (fun ch => pickUpdateCond db.now cid ch) = [] := by
        rw [List.filter_eq_nil_iff]
        intro ch hch
        simp [hcond0 ch hch]
      rw [hflt]
      simp
  · -- success effect and frame
    intro hass
    unfold PickChallenge
    simp only [hfind]
    rw [if_neg (by simp [hav]), if_neg (by simp [hex]), hpre]
    simp only [List.length_nil, gt_iff_lt, lt_self_iff_false, if_false]
    have hcondc : pickUpdateCond db.now cid c = true := hiff.mpr ⟨hav, hass⟩
    have haff : c ∈ db.challenges.filter (fun ch => pickUpdateCond db.now cid ch) :=
      List.mem_filter.mpr ⟨hmem, hcondc⟩
    have hlen : ((db.challenges.filter (fun ch => pickUpdateCond db.now cid ch)).length == 0) = false := by
      simp only [beq_eq_false_iff_ne, ne_eq]
      intro h0
      rw [List.length_eq_zero] at h0
      rw [h0] at haff
      cases haff
    rw [if_neg (by simp [hlen])]
    constructor
    · exact mem_map_if_pos
        (fun ch : Challenge => {ch with assignedTo := some uid, status := "in_progress"})
        (fun ch => pickUpdateCond db.now cid ch) db.challenges c hmem hcondc
    · intro ch hch hne
      exact mem_map_if_neg
        (fun ch : Challenge => {ch with assignedTo := some uid, status := "in_progress"})
        (fun ch => pickUpdateCond db.now cid ch) db.challenges ch hch
        (by simp [pickUpdateCond, hne])
  · -- race loss: zero affected rows, alreadyTaken, table unchanged
    intro v hass
    unfold PickChallenge
    simp only [hfind]
    rw [if_neg (by simp [hav]), if_neg (by simp [hex]), hpre]
    simp only [List.length_nil, gt_iff_lt, lt_self_iff_false, if_false]
    have hcond0 : ∀ ch ∈ db.challenges, pickUpdateCond db.now cid ch = false := by
      intro ch hch
      by_cases hchid : ch.id = cid
      · rw [huniq ch hch hchid]
        simp [pickUpdateCond, hass]
      · simp [pickUpdateCond, hchid]
    have hflt : db.challenges.filter (fun ch => pickUpdateCond db.now cid ch) = [] := by
      rw [List.filter_eq_nil_iff]
      intro ch hch
      simp [hcond0 ch hch]
    have hmapid : db.challenges.map (fun ch =>
        if pickUpdateCond db.now cid ch then
          {ch with assignedTo := some uid, status := "in_progress"}
        else ch) = db.challenges :=
      map_id_of_forall _ _ (fun a ha => by rw [hcond0 a ha]; simp)
    rw [hflt]
    rw [if_pos (by simp)]
    exact ⟨rfl, by simp [hmapid]⟩

/-- Witness instantiating C4_theorem on the concrete C4db state. -/
theorem C4_witness :
    (PickChallenge C4db 1 7).1 = PickResult.ok ∧
    ({C4chal with assignedTo := some 7, status := "in_progress"} : Challenge)
      ∈ (PickChallenge C4db 1 7).2.challenges := by
  have h := C4_theorem C4db 1 7 C4chal (by decide) (by decide) (by decide) (by decide)
    (by decide) (by decide) (by decide)
  exact ⟨h.2.1.mpr (by decide), (h.2.2.1 (by decide)).1⟩

/-! ## Claim C5 -/

/-- Rows written by the exclusive pick UPDATE satisfy invariant I1. -/
theorem challengeI1_assign (c : Challenge) (uid : Nat) :
    challengeI1 {c with assignedTo := some uid, status := "in_progress"} := by
  intro _
  simp

/-- Rows written by the cancel / unassign / delete-post UPDATE satisfy
invariant I1. -/
theorem challengeI1_clear (c : Challenge) :
    challengeI1 {c with assignedTo := none, status := "available"} := by
  intro _
  simp

/-- Rows written by the exclusive completion UPDATE satisfy invariant I1. -/
theorem challengeI1_complete (c : Challenge) (uid pid : Nat) (t : Int) :
    challengeI1 ({c with assignedTo := none, status := "completed",
                         completedBy := some uid, completedPostId := some pid,
                         completedAt := some t}) := by
  intro _
  simp

/-- Rows written by the revoke reset UPDATE satisfy invariant I1. -/
theorem challengeI1_reset (c : Challenge) :
    challengeI1 ({c with assignedTo := none, status := "available",
                         completedBy := none, completedPostId := none,
                         completedAt := none}) := by
  intro _
  simp

/-- PickChallenge preserves invariant I1. -/
theorem Pick_preserves_I1 (db : DB) (cid uid : Nat) (h : invariantI1 db) :
    invariantI1 (PickChallenge db cid uid).2 := by
  unfold PickChallenge
  split
  · exact h
  · split
    · exact h
    · split
      · split
        · exact h
        · exact h
      · split
        · exact h
        · split
          · intro x hx
            obtain ⟨a, ha, rfl⟩ := List.mem_map.mp hx
            split
            · exact challengeI1_assign a uid
            · exact h a ha
          · intro x hx
            obtain ⟨a, ha, rfl⟩ := List.mem_map.mp hx
            split
            · exact challengeI1_assign a uid
            · exact h a ha

/-- CancelChallenge preserves invariant I1. -/
theorem Cancel_preserves_I1 (db : DB) (cid uid : Nat) (h : invariantI1 db) :
    invariantI1 (CancelChallenge db cid uid).2 := by
  unfold CancelChallenge
  split
  · exact h
  · split
    · split
      · exact h
      · exact h
    · split
      · intro x hx
        obtain ⟨a, ha, rfl⟩ := List.mem_map.mp hx
        split
        · exact challengeI1_clear a
        · exact h a ha
      · intro x hx
        obtain ⟨a, ha, rfl⟩ := List.mem_map.mp hx
        split
        · exact challengeI1_clear a
        · exact h a ha

/-- CompleteChallenge preserves invariant I1. -/
theorem Complete_preserves_I1 (db : DB) (cid uid : Nat) (h : invariantI1 db) :
    invariantI1 (CompleteChallenge db cid uid).2 := by
  unfold CompleteChallenge
  split
  · exact h
  · split
    · split
      · exact h
      · intro x hx
        obtain ⟨a, ha, rfl⟩ := List.mem_map.mp hx
        split
        · exact challengeI1_complete a uid (nextPostId db) db.now
        · exact h a ha
    · split
      · exact h
      · split
        · exact h
        · exact h

/-- UnassignChallenge preserves invariant I1. -/
theorem Unassign_preserves_I1 (db : DB) (cid : Nat) (h : invariantI1 db) :
    invariantI1 (UnassignChallenge db cid).2 := by
  unfold UnassignChallenge
  split
  · intro x hx
    obtain ⟨a, ha, rfl⟩ := List.mem_map.mp hx
    split
    · exact challengeI1_clear a
    · exact h a ha
  · intro x hx
    obtain ⟨a, ha, rfl⟩ := List.mem_map.mp hx
    split
    · exact challengeI1_clear a
    · exact h a ha

/-- RevokePostPoints preserves invariant I1. -/
theorem Revoke_preserves_I1 (db : DB) (pid : Nat) (h : invariantI1 db) :
    invariantI1 (RevokePostPoints db pid).2 := by
  unfold RevokePostPoints
  split
  · exact h
  · split
    · exact h
    · intro x hx
      obtain ⟨a, ha, rfl⟩ := List.mem_map.mp hx
      split
      · exact challengeI1_reset a
      · exact h a ha

/-- C5: invariant I1 — an exclusive challenge is assigned iff it is
in_progress — holds after any sequence of pick, cancel, complete, unassign
and revoke operations run from any state satisfying it, in particular from
a freshly created challenge (which satisfies it by construction). -/
theorem C5_theorem (db : DB) (ops : List EngineOp) (h : invariantI1 db) :
    invariantI1 (runOps db ops) := by
  induction ops generalizing db with
  | nil => exact h
  | cons op rest ih =>
    apply ih
    cases op with
    | pick cid uid => exact Pick_preserves_I1 db cid uid h
    | cancel cid uid => exact Cancel_preserves_I1 db cid uid h
    | complete cid uid => exact Complete_preserves_I1 db cid uid h
    | unassign cid => exact Unassign_preserves_I1 db cid h
    | revoke pid => exact Revoke_preserves_I1 db pid h

/-- Witness instantiating C5_theorem on a fresh exclusive challenge and
the spec section 8 scenario sequence extended with revoke and unassign. -/
theorem C5_witness :
    invariantI1 (runOps
      {now := 5, challenges := [freshChallenge 1 50 "exclusive" none none],
       submissions := [], posts := []}
      [EngineOp.pick 1 101, EngineOp.cancel 1 101, EngineOp.pick 1 102,
       EngineOp.complete 1 102, EngineOp.revoke 1, EngineOp.pick 1 101,
       EngineOp.unassign 1]) :=
  C5_theorem _ _ (by decide)

/-! ## Claim C6 -/

/-- C6: for an open challenge and a user whose submission still has the
unset post reference, Complete creates the post, returns 0 points earned
(awaiting admin review), rewrites only that submission's post reference to
the new post id, and leaves the challenges table — including the
challenge's status, completedBy and completedPost — entirely unchanged. -/
theorem C6_theorem (db : DB) (cid uid : Nat) (c : Challenge) (s : Submission)
    (hfind : db.challenges.find? (fun ch => ch.id == cid) = some c)
    (hopen : c.challengeType = "open")
    (hsub : db.submissions.find? (fun s2 => s2.challengeId == cid && s2.userId == uid) = some s)
    (hpid : s.postId = 0) :
    (CompleteChallenge db cid uid).1 = CompleteResult.ok (nextPostId db) 0 ∧
    (CompleteChallenge db cid uid).2.challenges = db.challenges ∧
    (CompleteChallenge db cid uid).2.posts
      = db.posts ++ [{id := nextPostId db, userId := uid, challengeId := cid, revoked := false}] ∧
    (∀ s2 ∈ db.submissions,
      (s2.challengeId = cid ∧ s2.userId = uid →
        ({s2 with postId := nextPostId db} : Submission)
          ∈ (CompleteChallenge db cid uid).2.submissions) ∧
      (¬(s2.challengeId = cid ∧ s2.userId = uid) →
        s2 ∈ (CompleteChallenge db cid uid).2.submissions)) := by
  unfold CompleteChallenge
  simp only [hfind]
  rw [if_neg (by simp [hopen])]
  simp only [hsub]
  rw [if_neg (by simp [hpid])]
  refine ⟨rfl, rfl, rfl, ?_⟩
  intro s2 hs2
  constructor
  · intro hmatch
    exact mem_map_if_pos (fun x : Submission => {x with postId := nextPostId db})
      (fun x => x.challengeId == cid && x.userId == uid) db.submissions s2 hs2
      (by simp [hmatch.1, hmatch.2])
  · intro hmatch
    have hcond : (s2.challengeId == cid && s2.userId == uid) = false := by
      by_cases hA : s2.challengeId = cid
      · have hB : ¬ s2.userId = uid := fun hB => hmatch ⟨hA, hB⟩
        simp [hA, hB]
      · simp [hA]
    exact mem_map_if_neg (fun x : Submission => {x with postId := nextPostId db})
      (fun x => x.challengeId == cid && x.userId == uid) db.submissions s2 hs2 hcond

/-- Witness instantiating C6_theorem on the concrete C6db state. -/
theorem C6_witness :
    (CompleteChallenge C6db 1 2).1 = CompleteResult.ok 1 0 ∧
    (CompleteChallenge C6db 1 2).2.challenges = C6db.challenges ∧
    ({challengeId := 1, userId := 2, postId := 1} : Submission)
      ∈ (CompleteChallenge C6db 1 2).2.submissions := by
  have h := C6_theorem C6db 1 2 C6chal {challengeId := 1, userId := 2, postId := 0}
    (by decide) (by decide) (by decide) (by decide)
  exact ⟨h.1, h.2.1, (h.2.2.2 {challengeId := 1, userId := 2, postId := 0} (by decide)).1 (by decide)⟩

/-! ## Claim C7 -/

/-- C7: for an open challenge, Cancel deletes exactly the (challenge,
user) submission rows whose post reference is still the 0 sentinel; when
the user has no such row — already submitted or never joined — it returns
notYours and removes nothing, and in general a row survives iff it does
not match (challenge, user, unset). -/
theorem C7_theorem (db : DB) (cid uid : Nat) (c : Challenge)
    (hfind : db.challenges.find? (fun ch => ch.id == cid) = some c)
    (hopen : c.challengeType = "open") :
    (∀ s0 ∈ db.submissions, s0.challengeId = cid → s0.userId = uid → s0.postId = 0 →
      (CancelChallenge db cid uid).1 = CancelResult.ok) ∧
    ((∀ s0 ∈ db.submissions, ¬(s0.challengeId = cid ∧ s0.userId = uid ∧ s0.postId = 0)) →
      (CancelChallenge db cid uid).1 = CancelResult.notYours ∧
      (CancelChallenge db cid uid).2.submissions = db.submissions) ∧
    (∀ s0, s0 ∈ (CancelChallenge db cid uid).2.submissions ↔
      (s0 ∈ db.submissions ∧ ¬(s0.challengeId = cid ∧ s0.userId = uid ∧ s0.postId = 0))) := by
  unfold CancelChallenge
  simp only [hfind]
  rw [if_pos (by simp [hopen])]
  refine ⟨?_, ?_, ?_⟩
  · intro s0 hs0 h1 h2 h3
    have hmem : s0 ∈ db.submissions.filter
        (fun s => s.challengeId == cid && s.userId == uid && s.postId == 0) :=
      List.mem_filter.mpr ⟨hs0, by simp [h1, h2, h3]⟩
    have hcond : ¬(((db.submissions.filter
        (fun s => s.challengeId == cid && s.userId == uid && s.postId == 0)).length == 0) = true) := by
      simp only [beq_iff_eq]
      intro h0
      rw [List.length_eq_zero] at h0
      rw [h0] at hmem
      cases hmem
    rw [if_neg hcond]
  · intro hno
    have hflt : db.submissions.filter
        (fun s => s.challengeId == cid && s.userId == uid && s.postId == 0) = [] := by
      rw [List.filter_eq_nil_iff]
      intro s0 hs0
      have := hno s0 hs0
      simp only [Bool.and_eq_true, beq_iff_eq, not_and]
      intro h1 h2
      exact this ⟨h1.1, h1.2, h2⟩
    rw [hflt]
    rw [if_pos (by simp)]
    refine ⟨rfl, ?_⟩
    rw [List.filter_eq_self]
    intro s0 hs0
    have := hno s0 hs0
    by_cases h1 : s0.challengeId = cid
    · by_cases h2 : s0.userId = uid
      · have h3 : ¬ s0.postId = 0 := fun h3 => this ⟨h1, h2, h3⟩
        simp [h1, h2, h3]
      · simp [h1, h2]
    · simp [h1]
  · intro s0
    split
    · simp only [List.mem_filter, Bool.not_eq_true', and_congr_right_iff]
      intro _
      by_cases h1 : s0.challengeId = cid
      · by_cases h2 : s0.userId = uid
        · by_cases h3 : s0.postId = 0
          · simp [h1, h2, h3]
          · simp [h1, h2, h3]
        · simp [h1, h2]
      · simp [h1]
    · simp only [List.mem_filter, Bool.not_eq_true', and_congr_right_iff]
      intro _
      by_cases h1 : s0.challengeId = cid
      · by_cases h2 : s0.userId = uid
        · by_cases h3 : s0.postId = 0
          · simp [h1, h2, h3]
          · simp [h1, h2, h3]
        · simp [h1, h2]
      · simp [h1]

/-- Witness instantiating C7_theorem on the concrete C7db state: user 2
(unsubmitted) cancels successfully; user 3 (already submitted) gets
notYours with no row removed. -/
theorem C7_witness :
    (CancelChallenge C7db 1 2).1 = CancelResult.ok ∧
    (CancelChallenge C7db 1 3).1 = CancelResult.notYours ∧
    (CancelChallenge C7db 1 3).2.submissions = C7db.submissions := by
  have h2 := C7_theorem C7db 1 2 C6chal (by decide) (by decide)
  have h3 := C7_theorem C7db 1 3 C6chal (by decide) (by decide)
  refine ⟨h2.1 {challengeId := 1, userId := 2, postId := 0} (by decide) (by decide) (by decide) (by decide), ?_, ?_⟩
  · exact (h3.2.1 (by decide)).1
  · exact (h3.2.1 (by decide)).2

/-! ## Claim C8 -/

/-- C8: the scoring CASE expression excludes non-winning entrants of open
challenges — for a completed open challenge awarded to user b, a post by
any other user a referencing it contributes 0 points and 0 to the
completed count, while the winner b's post contributes the challenge's
points and 1, even though both posts exist and are non-revoked. -/
theorem C8_theorem (db : DB) (cid a b : Nat) (c : Challenge) (pa pb : Post)
    (hfind : findChallenge db cid = some c)
    (hopen : c.challengeType = "open")
    (hdone : c.status = "completed")
    (hwinner : c.completedBy = some b)
    (hne : a ≠ b)
    (hpa : pa.challengeId = cid) (hpb : pb.challengeId = cid) :
    postPointsContribution db a pa = 0 ∧
    postCompletedContribution db a pa = 0 ∧
    postPointsContribution db b pb = c.points ∧
    postCompletedContribution db b pb = 1 := by
  have hEa : earnsPoints a c = false := by
    simp only [earnsPoints, hopen, hdone, hwinner]
    simp
    exact fun h => hne h.symm
  have hEb : earnsPoints b c = true := by
    simp [earnsPoints, hopen, hdone, hwinner]
  unfold postPointsContribution postCompletedContribution
  rw [hpa, hpb, hfind]
  simp [hEa, hEb]

/-- Witness instantiating C8_theorem on C8db (submitters 2, 3, 4; admin
awarded user 2) and evaluating the full projection for all three users. -/
theorem C8_witness :
    postPointsContribution C8db 3 {id := 11, userId := 3, challengeId := 1, revoked := false} = 0 ∧
    postPointsContribution C8db 2 {id := 10, userId := 2, challengeId := 1, revoked := false} = 30 ∧
    userTotalPoints C8db 2 = 30 ∧ userTotalPoints C8db 3 = 0 ∧ userTotalPoints C8db 4 = 0 ∧
    userChallengesCompleted C8db 2 = 1 ∧ userChallengesCompleted C8db 3 = 0 := by
  have h := C8_theorem C8db 1 3 2 C3chal
    {id := 11, userId := 3, challengeId := 1, revoked := false}
    {id := 10, userId := 2, challengeId := 1, revoked := false}
    (by decide) (by decide) (by decide) (by decide) (by decide) (by decide) (by decide)
  exact ⟨h.1, h.2.2.1, by decide, by decide, by decide, by decide, by decide⟩

/-! ## Claim C9 -/

/-- C9: DeletePost's challenge reset is unconditional on which post is
deleted — for any post found by (id, owner), with no requirement on the
post's revoked flag or on the challenge's status, type, or completedBy,
the post's challenge row is rewritten with assignedTo = null and status =
available, un-completing even a completion recorded for another user. -/
theorem C9_theorem (db : DB) (pid uid : Nat) (p : Post) (c0 : Challenge)
    (hp : db.posts.find? (fun q => q.id == pid && q.userId == uid) = some p)
    (hc : db.challenges.find? (fun ch => ch.id == p.challengeId) = some c0) :
    (DeletePost db pid uid).1 = RevokeResult.ok ∧
    (∀ ch ∈ db.challenges, ch.id = p.challengeId →
      ({ch with assignedTo := none, status := "available"} : Challenge)
        ∈ (DeletePost db pid uid).2.challenges) := by
  unfold DeletePost
  simp only [hp, hc]
  refine ⟨trivial, ?_⟩
  intro ch hch hid
  exact mem_map_if_pos
    (fun c : Challenge => {c with assignedTo := none, status := "available"})
    (fun c : Challenge => c.id == p.challengeId) db.challenges ch hch (by simp [hid])

/-- Witness instantiating C9_theorem on C9db: user 3 deletes their
already-revoked, non-winning post of an open challenge awarded to user 2,
and the challenge drops back to available (completedBy still user 2). -/
theorem C9_witness :
    (DeletePost C9db 11 3).1 = RevokeResult.ok ∧
    ({C3chal with assignedTo := none, status := "available"} : Challenge)
      ∈ (DeletePost C9db 11 3).2.challenges := by
  have h := C9_theorem C9db 11 3 {id := 11, userId := 3, challengeId := 1, revoked := true}
    C3chal (by decide) (by decide)
  exact ⟨h.1, h.2 C3chal (by decide) (by decide)⟩

/-! ## Claim C10 -/

/-- C10: after a user deletes their submitted post for an open challenge,
the submission row survives untouched (still holding the deleted post's
nonzero id), so a subsequent Complete by that user returns
alreadySubmitted and a subsequent Cancel returns notYours: the user can
never re-enter or re-submit that open challenge. -/
theorem C10_theorem (db : DB) (cid pid uid : Nat) (p : Post) (c : Challenge) (s : Submission)
    (hp : db.posts.find? (fun q => q.id == pid && q.userId == uid) = some p)
    (hpc : p.challengeId = cid)
    (hcfind : db.challenges.find? (fun ch => ch.id == cid) = some c)
    (hopen : c.challengeType = "open")
    (hsfind : db.submissions.find? (fun s2 => s2.challengeId == cid && s2.userId == uid) = some s)
    (hspid : s.postId = pid)
    (hpid0 : pid ≠ 0)
    (huniq : ∀ s2 ∈ db.submissions, s2.challengeId = cid → s2.userId = uid → s2 = s) :
    (DeletePost db pid uid).2.submissions = db.submissions ∧
    (CompleteChallenge (DeletePost db pid uid).2 cid uid).1 = CompleteResult.alreadySubmitted ∧
    (CancelChallenge (DeletePost db pid uid).2 cid uid).1 = CancelResult.notYours := by
  have hcfind2 : db.challenges.find? (fun ch => ch.id == p.challengeId) = some c := by
    simp only [hpc]
    exact hcfind
  have hdel : (DeletePost db pid uid).2 =
      {db with
        posts := (db.posts.filter (fun q => !(q.id == pid))),
        challenges := (db.challenges.map (fun ch =>
          if ch.id == p.challengeId then {ch with assignedTo := none, status := "available"}
          else ch))} := by
    unfold DeletePost
    simp only [hp, hcfind2]
  have hDsub : (DeletePost db pid uid).2.submissions = db.submissions := by
    rw [hdel]
  have hDch : (DeletePost db pid uid).2.challenges = db.challenges.map (fun ch =>
      if ch.id == p.challengeId then {ch with assignedTo := none, status := "available"}
      else ch) :=
    congrArg DB.challenges hdel
  have hpresv : ∀ a : Challenge,
      ((if a.id == p.challengeId then
          ({a with assignedTo := none, status := "available"} : Challenge)
        else a).id == cid) = (a.id == cid) := by
    intro a
    by_cases h : (a.id == p.challengeId) = true <;> simp [h]
  have hty : (if c.id == p.challengeId then
      ({c with assignedTo := none, status := "available"} : Challenge)
    else c).challengeType = "open" := by
    by_cases h : (c.id == p.challengeId) = true
    · rw [if_pos h]; exact hopen
    · rw [if_neg h]; exact hopen
  refine ⟨hDsub, ?_, ?_⟩
  · unfold CompleteChallenge
    rw [hDch, find?_map_pred _ _ hpresv, hcfind]
    simp only [Option.map_some']
    rw [if_neg (by simp only [hty]; decide)]
    rw [hDsub]
    simp only [hsfind]
    rw [if_pos (by rw [hspid]; exact Nat.pos_of_ne_zero hpid0)]
  · unfold CancelChallenge
    rw [hDch, find?_map_pred _ _ hpresv, hcfind]
    simp only [Option.map_some']
    rw [if_pos (by simp only [hty]; decide)]
    rw [hDsub]
    have hflt : db.submissions.filter
        (fun s2 => s2.challengeId == cid && s2.userId == uid && s2.postId == 0) = [] := by
      rw [List.filter_eq_nil_iff]
      intro s2 hs2
      simp only [Bool.and_eq_true, beq_iff_eq, not_and]
      intro h12
      have hse := huniq s2 hs2 h12.1 h12.2
      rw [hse, hspid]
      exact hpid0
    rw [hflt]
    rw [if_pos (by simp)]

/-- Witness instantiating C10_theorem on C10db. -/
theorem C10_witness :
    (DeletePost C10db 9 2).2.submissions = C10db.submissions ∧
    (CompleteChallenge (DeletePost C10db 9 2).2 1 2).1 = CompleteResult.alreadySubmitted ∧
    (CancelChallenge (DeletePost C10db 9 2).2 1 2).1 = CancelResult.notYours :=
  C10_theorem C10db 1 9 2 {id := 9, userId := 2, challengeId := 1, revoked := false}
    C6chal {challengeId := 1, userId := 2, postId := 9}
    (by decide) (by decide) (by decide) (by decide) (by decide) (by decide) (by decide) (by decide)
